import Mathlib

/-
Verification of the Markdown-to-layout-block classifier and the PDF story
assembly of `travel_guide.py` (functions `markdown_to_flowables`, lines
204-249, and `write_pdf`, lines 251-280).

Modelling conventions:
* A line of text is a `List Char` (`Line`).
* Python's `str.splitlines` is modelled for the newline conventions
  `\n`, `\r\n` and `\r`; `str.strip` / `lstrip` / `rstrip` are modelled for
  ASCII whitespace (the rarely-seen extra Unicode whitespace and line
  boundary characters are outside the modelled input alphabet).
* The `while i < len(lines)` loop of `markdown_to_flowables` is embedded as
  `classifyFuel`, structurally recursive on a fuel argument: every loop
  iteration consumes at least one line, so fuel = number of remaining lines
  bounds the iteration count.  `classifyLines` instantiates the fuel with the
  line count; `classifyFuel_congr` proves the fuel value is irrelevant once
  it is at least the line count, which is exactly the termination argument
  of the Python loop.
* The emitted ReportLab flowables are abstracted to the tagged `Block` type:
  `Paragraph(text, h2_style)` becomes `Block.Heading 2 text`,
  `Paragraph(text, h3_style)` becomes `Block.Heading 3 text`,
  `Paragraph(text, body)` becomes `Block.Paragraph text`,
  `Spacer(1, h)` becomes `Block.Blank h`, and
  `ListFlowable(items)` (each item a body-styled paragraph) becomes
  `Block.ListBlock items`.  The title and timestamp paragraphs of
  `write_pdf` (styles `Header` and `Normal`) become `Block.TitlePar` and
  `Block.NormalPar`.
* The style sheet is modelled by the list of style names it defines; the
  typographic payload of each style never influences classification or
  lookup success, so only key presence is kept.  A Python `KeyError` on a
  missing style name is modelled as `Except.error` carrying the name.
-/

/-- A single line of text (no newline characters). -/
abbrev Line := List Char

/-- ASCII whitespace, as recognised by Python's `str.strip` family. -/
def pyIsSpace (c : Char) : Bool :=
  c = ' ' || c = '\t' || c = '\n' || c = '\r' || c = '\x0b' || c = '\x0c'

/-- Python `str.lstrip()`: drop leading whitespace. -/
def lstrip (l : Line) : Line := l.dropWhile pyIsSpace

/-- Python `str.rstrip()`: drop trailing whitespace. -/
def rstrip : Line → Line
  | [] => []
  | c :: cs =>
    match rstrip cs with
    | [] => if pyIsSpace c then [] else [c]
    | d :: ds => c :: d :: ds

/-- Python `str.strip()`: drop leading and trailing whitespace. -/
def strip (l : Line) : Line := rstrip (lstrip l)

/-- Python `str.splitlines()` restricted to the `\n`, `\r\n`, `\r` newline
conventions: split into lines, no trailing empty line for a trailing
terminator, `[]` for the empty string. -/
def splitLines : List Char → List Line
  | [] => []
  | '\r' :: '\n' :: rest => [] :: splitLines rest
  | '\n' :: rest => [] :: splitLines rest
  | '\r' :: rest => [] :: splitLines rest
  | c :: rest =>
    match splitLines rest with
    | [] => [[c]]
    | l :: ls => (c :: l) :: ls

/-- The bullet markers of `markdown_to_flowables` (line 236): `-`, `*`, `•`. -/
def isBulletMarker (c : Char) : Bool := c = '-' || c = '*' || c = '•'

/-- `line.lstrip().startswith(("-", "*", "•"))` (lines 236 and 238). -/
def isBulletLine (l : Line) : Bool :=
  match lstrip l with
  | [] => false
  | c :: _ => isBulletMarker c

/-- `lines[i].lstrip()[1:].strip()` (line 239): the text of one list item. -/
def bulletItemText (l : Line) : Line := strip ((lstrip l).drop 1)

/-- `"## "`: the level-2 heading marker followed by a space (line 227). -/
def h2Marker : Line := ['#', '#', ' ']

/-- `"### "`: the level-3 heading marker followed by a space (line 231). -/
def h3Marker : Line := ['#', '#', '#', ' ']

/-- Abstract layout blocks, one per flowable shape emitted by the source
(see the module comment for the correspondence). -/
inductive Block where
  | Blank (height : Nat)
  | Heading (level : Nat) (text : Line)
  | Paragraph (text : Line)
  | ListBlock (items : List Line)
  | TitlePar (text : Line)
  | NormalPar (text : Line)
  deriving DecidableEq, Repr

/-- The inner `while` loop of lines 238-241: consume the maximal run of
leading bullet lines, returning their item texts and the unconsumed rest. -/
def takeBullets : List Line → List Line × List Line
  | [] => ([], [])
  | l :: ls =>
    if isBulletLine l then
      let p := takeBullets ls
      (bulletItemText l :: p.1, p.2)
    else ([], l :: ls)

/-- The outer `while i < len(lines)` loop of lines 219-247, with a fuel
argument bounding the number of iterations (each iteration consumes at
least one line).  Guards and emitted blocks are literal translations:
blank test `not line.strip()` (line 222), `line.startswith("## ")`
(line 227), `line.startswith("### ")` (line 231), the bullet test
(line 236), and the paragraph fallback (line 246), where
`line = lines[i].rstrip()` (line 220). -/
def classifyFuel : Nat → List Line → List Block
  | 0, _ => []
  | _ + 1, [] => []
  | fuel + 1, l :: ls =>
    if (strip (rstrip l)).isEmpty then
      Block.Blank 6 :: classifyFuel fuel ls
    else if List.isPrefixOf h2Marker (rstrip l) then
      Block.Heading 2 (strip ((rstrip l).drop 3)) :: classifyFuel fuel ls
    else if List.isPrefixOf h3Marker (rstrip l) then
      Block.Heading 3 (strip ((rstrip l).drop 4)) :: classifyFuel fuel ls
    else if isBulletLine (rstrip l) then
      Block.ListBlock (takeBullets (l :: ls)).1 :: Block.Blank 4 ::
        classifyFuel fuel (takeBullets (l :: ls)).2
    else
      Block.Paragraph (rstrip l) :: classifyFuel fuel ls

/-- The classifier loop on a list of lines, with just enough fuel. -/
def classifyLines (ls : List Line) : List Block := classifyFuel ls.length ls

/-- The spec's `buildBlocks`: the classification pass of
`markdown_to_flowables` (lines 217-249), from raw text to blocks. -/
def buildBlocks (md_text : List Char) : List Block :=
  classifyLines (splitLines md_text)

/-- Style lookup: does the style sheet define this style name?
The sheet is modelled by its list of defined names. -/
def hasStyle (styles : List (List Char)) (name : List Char) : Bool :=
  styles.contains name

/-- `markdown_to_flowables(md_text, styles)` (lines 204-249): the three
style lookups `styles["BodyText"]`, `styles["Heading2"]`,
`styles["Heading3"]` (lines 213-215) happen before the line loop, in this
order; a missing name raises `KeyError(name)`, modelled as `Except.error`.
On success the classification pass runs. -/
def markdown_to_flowables (md_text : List Char) (styles : List (List Char)) :
    Except (List Char) (List Block) :=
  if hasStyle styles "BodyText".data then
    if hasStyle styles "Heading2".data then
      if hasStyle styles "Heading3".data then
        Except.ok (buildBlocks md_text)
      else Except.error "Heading3".data
    else Except.error "Heading2".data
  else Except.error "BodyText".data

/-- The style names defined by ReportLab's `getSampleStyleSheet()`, which
`write_pdf` uses (line 263); modelled by its key set. -/
def getSampleStyleSheet : List (List Char) :=
  ["Normal".data, "BodyText".data, "Italic".data, "Heading1".data,
   "Title".data, "Heading2".data, "Heading3".data, "Heading4".data,
   "Heading5".data, "Heading6".data, "Bullet".data, "Definition".data,
   "Code".data, "UnorderedList".data, "OrderedList".data]

/-- `write_pdf(markdown_text, ...)` (lines 251-280): the story assembly —
title paragraph `"Travel Plan"` in the `Header` style, the
`"Generated: <timestamp>"` paragraph in the `Normal` style, a
`Spacer(1, 10)`, then the flowables of `markdown_to_flowables` (lines
272-278).  The timestamp is an input (`now`); the ReportLab pagination
(`doc.build`) and the output path are external to the repository's code and
not modelled — the value is the ordered story handed to the builder. -/
def write_pdf (markdown_text : List Char) (now : Line) :
    Except (List Char) (List Block) :=
  match markdown_to_flowables markdown_text getSampleStyleSheet with
  | Except.error e => Except.error e
  | Except.ok flow =>
    Except.ok (Block.TitlePar "Travel Plan".data
      :: Block.NormalPar ("Generated: ".data ++ now)
      :: Block.Blank 10 :: flow)

/-- The texts carried by one block: `Heading.text`, `Paragraph.text`, the
items of a `ListBlock`; spacers carry none.  (`TitlePar`/`NormalPar` are
the fixed header furniture of `write_pdf`, never produced by the
classifier, and carry no source text.) -/
def blockTexts : Block → List Line
  | Block.Blank _ => []
  | Block.Heading _ t => [t]
  | Block.Paragraph t => [t]
  | Block.ListBlock items => items
  | Block.TitlePar _ => []
  | Block.NormalPar _ => []

/-- Concatenation of all texts carried by a block sequence, in order. -/
def emittedTexts : List Block → List Line
  | [] => []
  | b :: bs => blockTexts b ++ emittedTexts bs

/-- Modelled from the spec (§3 invariant, §8 first property): the text a
single source line contributes to the document — nothing for a blank line,
the remainder after the heading marker for a heading line, the item text
after the bullet marker for a bullet line, and the line itself (trailing
whitespace being insignificant) for a paragraph line. -/
def strippedSourceLine (l : Line) : Option Line :=
  if (strip (rstrip l)).isEmpty then none
  else if List.isPrefixOf h2Marker (rstrip l) then
    some (strip ((rstrip l).drop 3))
  else if List.isPrefixOf h3Marker (rstrip l) then
    some (strip ((rstrip l).drop 4))
  else if isBulletLine (rstrip l) then some (bulletItemText l)
  else some (rstrip l)

/-! ### Whitespace-stripping lemmas -/

lemma pyIsSpace_head_lstrip : ∀ {l : Line} {c : Char} {t : Line},
    lstrip l = c :: t → pyIsSpace c = false := by
  intro l
  induction l with
  | nil => intro c t h; simp [lstrip] at h
  | cons a l ih =>
    intro c t h
    by_cases ha : pyIsSpace a
    · rw [lstrip, List.dropWhile_cons_of_pos ha] at h
      exact ih h
    · rw [lstrip, List.dropWhile_cons_of_neg ha] at h
      cases h
      simpa using ha

lemma lstrip_cons_of_space {c : Char} {t : Line} (h : pyIsSpace c = true) :
    lstrip (c :: t) = lstrip t := by
  rw [lstrip, List.dropWhile_cons_of_pos h]; rfl

lemma lstrip_cons_of_not_space {c : Char} {t : Line} (h : pyIsSpace c = false) :
    lstrip (c :: t) = c :: t := by
  rw [lstrip, List.dropWhile_cons_of_neg (by simp [h])]

lemma rstrip_head_keep {c : Char} (t : Line) (h : pyIsSpace c = false) :
    ∃ u, rstrip (c :: t) = c :: u := by
  rw [rstrip]
  cases hr : rstrip t with
  | nil => exact ⟨[], by simp [h]⟩
  | cons d ds => exact ⟨d :: ds, rfl⟩

lemma lstrip_of_rstrip_nil : ∀ {l : Line}, rstrip l = [] → lstrip l = [] := by
  intro l
  induction l with
  | nil => intro _; rfl
  | cons c cs ih =>
    intro h
    rw [rstrip] at h
    cases hr : rstrip cs with
    | nil =>
      rw [hr] at h
      by_cases hc : pyIsSpace c
      · rw [lstrip_cons_of_space hc]; exact ih hr
      · simp [hc] at h
    | cons d ds => rw [hr] at h; cases h

lemma rstrip_cons_cases (c : Char) (t : Line) :
    rstrip (c :: t) = [] ∨ ∃ u, rstrip (c :: t) = c :: u := by
  rw [rstrip]
  cases hr : rstrip t with
  | nil =>
    cases hc : pyIsSpace c with
    | false => right; exact ⟨[], by simp [hc]⟩
    | true => left; simp [hc]
  | cons d ds => right; exact ⟨d :: ds, rfl⟩

lemma rstrip_idem : ∀ l : Line, rstrip (rstrip l) = rstrip l := by
  intro l
  induction l with
  | nil => rfl
  | cons c cs ih =>
    cases hr : rstrip cs with
    | nil =>
      cases hc : pyIsSpace c with
      | false => simp [rstrip, hr, hc]
      | true => simp [rstrip, hr, hc]
    | cons d ds =>
      rw [hr] at ih
      have h1 : rstrip (c :: cs) = c :: d :: ds := by rw [rstrip, hr]
      rw [h1, rstrip, ih]

lemma lstrip_rstrip_comm : ∀ l : Line, lstrip (rstrip l) = rstrip (lstrip l) := by
  intro l
  induction l with
  | nil => rfl
  | cons c cs ih =>
    cases hc : pyIsSpace c with
    | true =>
      cases hr : rstrip cs with
      | nil =>
        have h1 : rstrip (c :: cs) = [] := by simp [rstrip, hr, hc]
        rw [h1, lstrip_cons_of_space hc, lstrip_of_rstrip_nil hr]
        rfl
      | cons d ds =>
        have h1 : rstrip (c :: cs) = c :: d :: ds := by simp [rstrip, hr]
        rw [h1, lstrip_cons_of_space hc, lstrip_cons_of_space hc, ← hr]
        exact ih
    | false =>
      cases hr : rstrip cs with
      | nil =>
        have h1 : rstrip (c :: cs) = [c] := by simp [rstrip, hr, hc]
        rw [lstrip_cons_of_not_space hc, h1, lstrip_cons_of_not_space hc]
      | cons d ds =>
        have h1 : rstrip (c :: cs) = c :: d :: ds := by simp [rstrip, hr]
        rw [lstrip_cons_of_not_space hc, h1, lstrip_cons_of_not_space hc]

lemma strip_rstrip (l : Line) : strip (rstrip l) = strip l := by
  rw [strip, lstrip_rstrip_comm, rstrip_idem, strip]

lemma strip_isEmpty_eq (l : Line) : (strip l).isEmpty = (lstrip l).isEmpty := by
  rw [strip]
  cases h : lstrip l with
  | nil => rfl
  | cons c t =>
    have hc := pyIsSpace_head_lstrip h
    obtain ⟨u, hu⟩ := rstrip_head_keep t hc
    rw [hu]
    rfl

lemma isBulletLine_rstrip (l : Line) :
    isBulletLine (rstrip l) = isBulletLine l := by
  rw [isBulletLine, isBulletLine, lstrip_rstrip_comm]
  cases h : lstrip l with
  | nil => rfl
  | cons c t =>
    have hc := pyIsSpace_head_lstrip h
    obtain ⟨u, hu⟩ := rstrip_head_keep t hc
    rw [hu]

/-- Decomposition of `rstrip`: the input is the output followed by a
whitespace-only suffix. -/
lemma rstrip_decomp : ∀ {l r : Line}, rstrip l = r →
    ∃ t, l = r ++ t ∧ lstrip t = [] := by
  intro l
  induction l with
  | nil => intro r h; exact ⟨[], by simp [← h, rstrip], rfl⟩
  | cons c cs ih =>
    intro r h
    rw [rstrip] at h
    cases hr : rstrip cs with
    | nil =>
      rw [hr] at h
      obtain ⟨t, ht, hts⟩ := ih hr
      by_cases hc : pyIsSpace c
      · simp only [hc, if_true] at h
        refine ⟨c :: cs, by simp [← h], ?_⟩
        rw [lstrip_cons_of_space hc]
        simpa [ht] using hts
      · simp only [hc, if_false, Bool.false_eq_true] at h
        exact ⟨cs, by simp [← h, ht], by simpa [ht] using hts⟩
    | cons d ds =>
      rw [hr] at h
      obtain ⟨t, ht, hts⟩ := ih hr
      exact ⟨t, by simp [← h, ht], hts⟩

/-! ### Guard-discrimination lemmas: the five branches of the loop body are
mutually exclusive in the order the source tests them. -/

lemma isBulletLine_hash (t : Line) : isBulletLine ('#' :: t) = false := by
  rw [isBulletLine, lstrip_cons_of_not_space (show pyIsSpace '#' = false by decide)]
  rfl

lemma not_blank_of_bullet {l : Line} (h : isBulletLine l = true) :
    (strip l).isEmpty = false := by
  rw [strip_isEmpty_eq]
  rw [isBulletLine] at h
  cases hl : lstrip l with
  | nil => rw [hl] at h; cases h
  | cons c t => rfl

lemma isPrefixOf_h2 {m : Line} (h : List.isPrefixOf h2Marker m = true) :
    ∃ t, m = '#' :: '#' :: ' ' :: t := by
  rw [List.isPrefixOf_iff_prefix] at h
  obtain ⟨t, ht⟩ := h
  exact ⟨t, ht.symm⟩

lemma isPrefixOf_h3 {m : Line} (h : List.isPrefixOf h3Marker m = true) :
    ∃ t, m = '#' :: '#' :: '#' :: ' ' :: t := by
  rw [List.isPrefixOf_iff_prefix] at h
  obtain ⟨t, ht⟩ := h
  exact ⟨t, ht.symm⟩

lemma not_h2_of_bullet {m : Line} (h : isBulletLine m = true) :
    List.isPrefixOf h2Marker m = false := by
  by_contra hc
  rw [Bool.not_eq_false] at hc
  obtain ⟨t, ht⟩ := isPrefixOf_h2 hc
  rw [ht, isBulletLine_hash] at h
  cases h

lemma not_h3_of_bullet {m : Line} (h : isBulletLine m = true) :
    List.isPrefixOf h3Marker m = false := by
  by_contra hc
  rw [Bool.not_eq_false] at hc
  obtain ⟨t, ht⟩ := isPrefixOf_h3 hc
  rw [ht, isBulletLine_hash] at h
  cases h

lemma not_blank_of_h2 {m : Line} (h : List.isPrefixOf h2Marker (rstrip m) = true) :
    (strip (rstrip m)).isEmpty = false := by
  obtain ⟨t, ht⟩ := isPrefixOf_h2 h
  rw [strip_isEmpty_eq, ht, lstrip_cons_of_not_space (by decide)]
  rfl

lemma not_blank_of_h3 {m : Line} (h : List.isPrefixOf h3Marker (rstrip m) = true) :
    (strip (rstrip m)).isEmpty = false := by
  obtain ⟨t, ht⟩ := isPrefixOf_h3 h
  rw [strip_isEmpty_eq, ht, lstrip_cons_of_not_space (by decide)]
  rfl

lemma not_h2_of_h3 {m : Line} (h : List.isPrefixOf h3Marker m = true) :
    List.isPrefixOf h2Marker m = false := by
  obtain ⟨t, ht⟩ := isPrefixOf_h3 h
  subst ht
  rfl

lemma ws_not_h2 {c : Char} {t : Line} (hc : pyIsSpace c = true) :
    List.isPrefixOf h2Marker (rstrip (c :: t)) = false := by
  have hne : ('#' == c) = false := by
    rw [beq_eq_false_iff_ne]
    intro hh
    rw [← hh] at hc
    exact absurd hc (by decide)
  rcases rstrip_cons_cases c t with h | ⟨u, hu⟩
  · rw [h]; rfl
  · rw [hu]
    show List.isPrefixOf ('#' :: '#' :: ' ' :: []) (c :: u) = false
    rw [List.isPrefixOf_cons₂, hne, Bool.false_and]

lemma ws_not_h3 {c : Char} {t : Line} (hc : pyIsSpace c = true) :
    List.isPrefixOf h3Marker (rstrip (c :: t)) = false := by
  have hne : ('#' == c) = false := by
    rw [beq_eq_false_iff_ne]
    intro hh
    rw [← hh] at hc
    exact absurd hc (by decide)
  rcases rstrip_cons_cases c t with h | ⟨u, hu⟩
  · rw [h]; rfl
  · rw [hu]
    show List.isPrefixOf ('#' :: '#' :: '#' :: ' ' :: []) (c :: u) = false
    rw [List.isPrefixOf_cons₂, hne, Bool.false_and]

/-! ### The bullet-accumulation loop -/

lemma takeBullets_cons_of_bullet {l : Line} {ls : List Line}
    (h : isBulletLine l = true) :
    takeBullets (l :: ls) =
      (bulletItemText l :: (takeBullets ls).1, (takeBullets ls).2) := by
  simp [takeBullets, h]

lemma takeBullets_cons_of_not_bullet {l : Line} {ls : List Line}
    (h : isBulletLine l = false) :
    takeBullets (l :: ls) = ([], l :: ls) := by
  simp [takeBullets, h]

lemma takeBullets_snd_le : ∀ ls : List Line,
    (takeBullets ls).2.length ≤ ls.length := by
  intro ls
  induction ls with
  | nil => simp [takeBullets]
  | cons l ls ih =>
    cases h : isBulletLine l with
    | true =>
      rw [takeBullets_cons_of_bullet h]
      exact le_trans ih (Nat.le_succ _)
    | false =>
      rw [takeBullets_cons_of_not_bullet h]

/-- The inner loop consumes exactly the maximal leading run of bullet
lines, mapping each to its item text, and leaves the rest untouched. -/
lemma takeBullets_eq : ∀ ls : List Line,
    takeBullets ls =
      ((ls.takeWhile isBulletLine).map bulletItemText,
        ls.dropWhile isBulletLine) := by
  intro ls
  induction ls with
  | nil => rfl
  | cons l ls ih =>
    cases h : isBulletLine l with
    | true => simp [takeBullets, h, ih]
    | false => simp [takeBullets, h]

/-! ### Fuel adequacy for the outer loop -/

lemma classifyFuel_congr : ∀ (f g : Nat) (ls : List Line),
    ls.length ≤ f → ls.length ≤ g → classifyFuel f ls = classifyFuel g ls := by
  intro f
  induction f with
  | zero =>
    intro g ls h1 _
    have hnil : ls = [] := List.length_eq_zero.mp (Nat.le_zero.mp h1)
    subst hnil
    cases g <;> rfl
  | succ f ih =>
    intro g ls h1 h2
    cases ls with
    | nil => cases g <;> rfl
    | cons l ls =>
      cases g with
      | zero => exact absurd h2 (by simp)
      | succ g =>
        have h1' : ls.length ≤ f := by simpa using h1
        have h2' : ls.length ≤ g := by simpa using h2
        simp only [classifyFuel]
        split_ifs with hb hh2 hh3 hbl
        · rw [ih g ls h1' h2']
        · rw [ih g ls h1' h2']
        · rw [ih g ls h1' h2']
        · have hbl' : isBulletLine l = true := by
            rw [← isBulletLine_rstrip]; exact hbl
          have hlen : (takeBullets (l :: ls)).2.length ≤ ls.length := by
            rw [takeBullets_cons_of_bullet hbl']
            exact takeBullets_snd_le ls
          rw [ih g _ (le_trans hlen h1') (le_trans hlen h2')]
        · rw [ih g ls h1' h2']

/-- One unfolding of the classifier loop: the five branches of lines
220-247 in source order. -/
lemma classifyLines_cons (l : Line) (ls : List Line) :
    classifyLines (l :: ls) =
      if (strip (rstrip l)).isEmpty then Block.Blank 6 :: classifyLines ls
      else if List.isPrefixOf h2Marker (rstrip l) then
        Block.Heading 2 (strip ((rstrip l).drop 3)) :: classifyLines ls
      else if List.isPrefixOf h3Marker (rstrip l) then
        Block.Heading 3 (strip ((rstrip l).drop 4)) :: classifyLines ls
      else if isBulletLine (rstrip l) then
        Block.ListBlock (takeBullets (l :: ls)).1 :: Block.Blank 4 ::
          classifyLines (takeBullets (l :: ls)).2
      else Block.Paragraph (rstrip l) :: classifyLines ls := by
  show classifyFuel (l :: ls).length (l :: ls) = _
  rw [List.length_cons]
  simp only [classifyFuel]
  split_ifs with hb hh2 hh3 hbl
  · rfl
  · rfl
  · rfl
  · have hbl' : isBulletLine l = true := by
      rw [← isBulletLine_rstrip]; exact hbl
    have hlen : (takeBullets (l :: ls)).2.length ≤ ls.length := by
      rw [takeBullets_cons_of_bullet hbl']
      exact takeBullets_snd_le ls
    rw [classifyFuel_congr ls.length (takeBullets (l :: ls)).2.length _ hlen le_rfl]
    rfl
  · rfl

/-- Shared shape of the bullet branch: on reaching a bullet line the
classifier emits one `ListBlock` holding the item texts of the maximal
bullet run, then one `Blank` spacer, and resumes at the first non-bullet
line without consuming it. -/
lemma classify_bullet_run (l : Line) (ls : List Line)
    (h : isBulletLine l = true) :
    classifyLines (l :: ls) =
      Block.ListBlock
          (bulletItemText l :: (ls.takeWhile isBulletLine).map bulletItemText)
        :: Block.Blank 4 :: classifyLines (ls.dropWhile isBulletLine) := by
  have hbr : isBulletLine (rstrip l) = true := by
    rw [isBulletLine_rstrip]; exact h
  have h0 : (strip (rstrip l)).isEmpty = false := by
    rw [strip_rstrip]; exact not_blank_of_bullet h
  have hA : List.isPrefixOf h2Marker (rstrip l) = false := not_h2_of_bullet hbr
  have hB : List.isPrefixOf h3Marker (rstrip l) = false := not_h3_of_bullet hbr
  rw [classifyLines_cons]
  simp [h0, hA, hB, hbr, takeBullets_cons_of_bullet h, takeBullets_eq]

/-! ### Per-line text contribution -/

lemma isPrefixOf_hashhash {m : Line}
    (h : List.isPrefixOf ['#', '#'] m = true) : ∃ t, m = '#' :: '#' :: t := by
  rw [List.isPrefixOf_iff_prefix] at h
  obtain ⟨t, ht⟩ := h
  exact ⟨t, ht.symm⟩

lemma strippedSourceLine_bullet {l : Line} (h : isBulletLine l = true) :
    strippedSourceLine l = some (bulletItemText l) := by
  have hbr : isBulletLine (rstrip l) = true := by
    rw [isBulletLine_rstrip]; exact h
  have h0 : (strip (rstrip l)).isEmpty = false := by
    rw [strip_rstrip]; exact not_blank_of_bullet h
  simp [strippedSourceLine, h0, not_h2_of_bullet hbr, not_h3_of_bullet hbr, hbr]

lemma takeBullets_texts : ∀ ls : List Line,
    (takeBullets ls).1 ++ (takeBullets ls).2.filterMap strippedSourceLine =
      ls.filterMap strippedSourceLine := by
  intro ls
  induction ls with
  | nil => rfl
  | cons l ls ih =>
    cases h : isBulletLine l with
    | true =>
      rw [takeBullets_cons_of_bullet h, List.cons_append, ih,
        List.filterMap_cons, strippedSourceLine_bullet h]
    | false =>
      rw [takeBullets_cons_of_not_bullet h, List.nil_append]

lemma emittedTexts_list_eq : ∀ (n : Nat) (ls : List Line), ls.length ≤ n →
    emittedTexts (classifyLines ls) = ls.filterMap strippedSourceLine := by
  intro n
  induction n with
  | zero =>
    intro ls h
    have hnil : ls = [] := List.length_eq_zero.mp (Nat.le_zero.mp h)
    subst hnil
    rfl
  | succ n ih =>
    intro ls h
    cases ls with
    | nil => rfl
    | cons l ls =>
      have h' : ls.length ≤ n := by simpa using h
      rw [classifyLines_cons]
      split_ifs with hb hh2 hh3 hbl
      · have hsl : strippedSourceLine l = none := by
          simp [strippedSourceLine, hb]
        rw [List.filterMap_cons, hsl]
        simpa [emittedTexts, blockTexts] using ih ls h'
      · have hsl : strippedSourceLine l = some (strip ((rstrip l).drop 3)) := by
          simp [strippedSourceLine, hb, hh2]
        rw [List.filterMap_cons, hsl]
        simpa [emittedTexts, blockTexts] using ih ls h'
      · have hsl : strippedSourceLine l = some (strip ((rstrip l).drop 4)) := by
          simp [strippedSourceLine, hb, hh2, hh3]
        rw [List.filterMap_cons, hsl]
        simpa [emittedTexts, blockTexts] using ih ls h'
      · have hbl' : isBulletLine l = true := by
          rw [← isBulletLine_rstrip]; exact hbl
        have hlen : (takeBullets (l :: ls)).2.length ≤ n := by
          rw [takeBullets_cons_of_bullet hbl']
          exact le_trans (takeBullets_snd_le ls) h'
        simp only [emittedTexts, blockTexts, List.nil_append, List.append_nil]
        rw [ih _ hlen]
        exact takeBullets_texts (l :: ls)
      · have hsl : strippedSourceLine l = some (rstrip l) := by
          simp [strippedSourceLine, hb, hh2, hh3, hbl]
        rw [List.filterMap_cons, hsl]
        simpa [emittedTexts, blockTexts] using ih ls h'

/-! ## Claim theorems -/

/-- C1: for every input text, concatenating the texts carried by the blocks
of `buildBlocks` (Heading texts, Paragraph texts, and ListBlock items, in
block and item order, ignoring Blank blocks) equals the sequence of the
input's non-blank lines with their bullet/heading markers stripped, in the
original line order, with no line lost or reordered. -/
theorem buildBlocks_preserves_source_text (md : List Char) :
    emittedTexts (buildBlocks md) =
      (splitLines md).filterMap strippedSourceLine :=
  emittedTexts_list_eq (splitLines md).length (splitLines md) le_rfl

/-- C2: whenever the classifier reaches a line that after left-trim begins
with a bullet marker, it consumes the maximal run of consecutive bullet
lines, takes each item text to be the line with the single leading marker
and surrounding whitespace stripped, emits exactly one `ListBlock` of those
items in order followed by exactly one `Blank` spacer, and does not consume
the first following non-bullet line (including a blank line). -/
theorem bullet_run_single_listblock (l : Line) (ls : List Line)
    (h : isBulletLine l = true) :
    classifyLines (l :: ls) =
      Block.ListBlock (((l :: ls).takeWhile isBulletLine).map bulletItemText)
        :: Block.Blank 4
        :: classifyLines ((l :: ls).dropWhile isBulletLine) := by
  rw [classify_bullet_run l ls h, List.takeWhile_cons_of_pos h,
    List.dropWhile_cons_of_pos h, List.map_cons]

/-- Witness for C2: two bullet runs separated by a blank line become two
separate ListBlocks with the spacer and blank between them. -/
theorem bullet_run_single_listblock_witness :
    classifyLines ["- a".data, "".data, "- b".data] =
      [Block.ListBlock ["a".data], Block.Blank 4, Block.Blank 6,
       Block.ListBlock ["b".data], Block.Blank 4] :=
  (bullet_run_single_listblock "- a".data ["".data, "- b".data]
    (by decide)).trans (by decide)

/-- C3: a line (trailing whitespace being insignificant) yields
`Heading 2` exactly when it starts with the two-character level-2 marker
followed by a space, `Heading 3` exactly when it starts with the
three-character level-3 marker followed by a space, and a line bearing a
heading marker with no following space is classified as a plain
`Paragraph`, never a `Heading`. -/
theorem heading_classification (l : Line) (ls : List Line) :
    (List.isPrefixOf h2Marker (rstrip l) = true →
      classifyLines (l :: ls) =
        Block.Heading 2 (strip ((rstrip l).drop 3)) :: classifyLines ls) ∧
    (List.isPrefixOf h3Marker (rstrip l) = true →
      classifyLines (l :: ls) =
        Block.Heading 3 (strip ((rstrip l).drop 4)) :: classifyLines ls) ∧
    (∀ lvl txt rest,
      classifyLines (l :: ls) = Block.Heading lvl txt :: rest →
      (lvl = 2 ∧ List.isPrefixOf h2Marker (rstrip l) = true) ∨
      (lvl = 3 ∧ List.isPrefixOf h3Marker (rstrip l) = true)) ∧
    (List.isPrefixOf ['#', '#'] (rstrip l) = true →
      List.isPrefixOf h2Marker (rstrip l) = false →
      List.isPrefixOf h3Marker (rstrip l) = false →
      classifyLines (l :: ls) =
        Block.Paragraph (rstrip l) :: classifyLines ls) := by
  refine ⟨?_, ?_, ?_, ?_⟩
  · intro h
    have h0 : (strip (rstrip l)).isEmpty = false := not_blank_of_h2 h
    rw [classifyLines_cons]
    simp [h0, h]
  · intro h
    have h0 : (strip (rstrip l)).isEmpty = false := not_blank_of_h3 h
    rw [classifyLines_cons]
    simp [h0, not_h2_of_h3 h, h]
  · intro lvl txt rest heq
    rw [classifyLines_cons] at heq
    split_ifs at heq with hb hh2 hh3 hbl
    · simp at heq
    · injection heq with h1 _
      injection h1 with hlv _
      exact Or.inl ⟨hlv.symm, hh2⟩
    · injection heq with h1 _
      injection h1 with hlv _
      exact Or.inr ⟨hlv.symm, hh3⟩
    · simp at heq
    · simp at heq
  · intro hpre hn2 hn3
    obtain ⟨t, ht⟩ := isPrefixOf_hashhash hpre
    have h0 : (strip (rstrip l)).isEmpty = false := by
      rw [strip_isEmpty_eq, ht,
        lstrip_cons_of_not_space (show pyIsSpace '#' = false by decide)]
      rfl
    have hnb : isBulletLine (rstrip l) = false := by
      rw [ht]; exact isBulletLine_hash t
    rw [classifyLines_cons]
    simp [h0, hn2, hn3, hnb]

/-- Witness for C3: a level-2 heading, a level-3 heading, and a marker with
no following space falling back to a paragraph. -/
theorem heading_classification_witness :
    classifyLines ["## A".data] = [Block.Heading 2 "A".data] ∧
    classifyLines ["### B".data] = [Block.Heading 3 "B".data] ∧
    classifyLines ["##A".data] = [Block.Paragraph "##A".data] :=
  ⟨((heading_classification "## A".data []).1 (by decide)).trans (by decide),
   ((heading_classification "### B".data []).2.1 (by decide)).trans (by decide),
   (((heading_classification "##A".data []).2.2.2)
      (by decide) (by decide) (by decide)).trans (by decide)⟩

/-- C4: `buildBlocks` is a total terminating function over all input
strings (it is a Lean function, defined by recursion whose termination is
discharged by `classifyFuel_congr`: line-count fuel suffices because every
loop iteration consumes at least one line), and the empty string yields an
empty block sequence. -/
theorem buildBlocks_total_and_empty :
    buildBlocks "".data = [] ∧ ∀ md : List Char, ∃ bs, buildBlocks md = bs :=
  ⟨rfl, fun md => ⟨buildBlocks md, rfl⟩⟩

/-- C6 counterexample: a style table with the three entries the code
actually looks up but no `ListBlock` entry, on input containing a bullet
list, renders successfully (the output contains a `ListBlock`): no
`StyleLookupError` is raised for the missing `ListBlock` entry. -/
theorem listblock_style_miss_no_failure :
    hasStyle ["BodyText".data, "Heading2".data, "Heading3".data]
        "ListBlock".data = false ∧
    markdown_to_flowables "- item".data
        ["BodyText".data, "Heading2".data, "Heading3".data] =
      Except.ok [Block.ListBlock ["item".data], Block.Blank 4] :=
  ⟨by decide, rfl⟩

/-- C6 (amended): the conversion looks up only the three style names
`BodyText`, `Heading2`, `Heading3`, in that order, before processing any
line; if one is missing it fails with a lookup error naming the first
missing style and produces no flowables, regardless of the input content;
if all three are present it succeeds — there is no `ListBlock` style
lookup (list items reuse the `BodyText` style). -/
theorem style_lookup_eager_on_used_names (md : List Char)
    (styles : List (List Char)) :
    (hasStyle styles "BodyText".data = false →
      markdown_to_flowables md styles = Except.error "BodyText".data) ∧
    (hasStyle styles "BodyText".data = true →
      hasStyle styles "Heading2".data = false →
      markdown_to_flowables md styles = Except.error "Heading2".data) ∧
    (hasStyle styles "BodyText".data = true →
      hasStyle styles "Heading2".data = true →
      hasStyle styles "Heading3".data = false →
      markdown_to_flowables md styles = Except.error "Heading3".data) ∧
    (hasStyle styles "BodyText".data = true →
      hasStyle styles "Heading2".data = true →
      hasStyle styles "Heading3".data = true →
      markdown_to_flowables md styles = Except.ok (buildBlocks md)) := by
  refine ⟨?_, ?_, ?_, ?_⟩ <;> intros <;> simp_all [markdown_to_flowables]

/-- Witness for the amended C6: a table defining only `Heading2` fails on
the first lookup, `BodyText`. -/
theorem style_lookup_eager_witness :
    markdown_to_flowables "x".data ["Heading2".data] =
      Except.error "BodyText".data :=
  (style_lookup_eager_on_used_names "x".data ["Heading2".data]).1 (by decide)

/-- C7: the specified six-block scenario. -/
theorem scenario_six_blocks :
    buildBlocks
        "## Trip Overview\nSample text.\n\n### Day 1\n- Museum visit\n- Coffee break\n".data =
      [Block.Heading 2 "Trip Overview".data,
       Block.Paragraph "Sample text.".data,
       Block.Blank 6,
       Block.Heading 3 "Day 1".data,
       Block.ListBlock ["Museum visit".data, "Coffee break".data],
       Block.Blank 4] := by decide

/-- C8: for every input (including empty and blank-only input) the story
assembled by `write_pdf` begins with the fixed title paragraph and the
generation-timestamp paragraph, placed before any content blocks,
unconditionally. -/
theorem write_pdf_header_first (md : List Char) (now : Line) :
    write_pdf md now =
      Except.ok (Block.TitlePar "Travel Plan".data
        :: Block.NormalPar ("Generated: ".data ++ now)
        :: Block.Blank 10 :: buildBlocks md) := rfl

/-- C9: a line consisting of only a bullet marker (surrounded by
whitespace at most) contributes an empty-string item to the enclosing
`ListBlock`; the item is not dropped and the input is not rejected. -/
theorem bare_marker_empty_item (l : Line) (ls : List Line) (m : Char)
    (h1 : strip l = [m]) (h2 : isBulletMarker m = true) :
    classifyLines (l :: ls) =
      Block.ListBlock ([] :: (ls.takeWhile isBulletLine).map bulletItemText)
        :: Block.Blank 4 :: classifyLines (ls.dropWhile isBulletLine) := by
  obtain ⟨t, ht, hts⟩ := rstrip_decomp (l := lstrip l) (r := [m]) h1
  have hb : isBulletLine l = true := by
    rw [isBulletLine, ht, List.singleton_append]
    exact h2
  have hitem : bulletItemText l = [] := by
    rw [bulletItemText, ht, List.singleton_append]
    show strip t = []
    rw [strip, hts]
    rfl
  rw [classify_bullet_run l ls hb, hitem]

/-- Witness for C9: the line `"-"` alone yields a one-item list whose item
is the empty string. -/
theorem bare_marker_empty_item_witness :
    classifyLines ["-".data] = [Block.ListBlock [[]], Block.Blank 4] :=
  (bare_marker_empty_item "-".data [] '-' (by decide) (by decide)).trans
    (by decide)

/-- C10: heading markers are recognised only at column zero — a line whose
first character is whitespace is never classified as a `Heading`, even if
it left-trims to a heading marker followed by a space; if non-blank it is
classified as a bullet run (when it left-trims to a bullet marker, which
is recognised after left-trimming) or as a `Paragraph`. -/
theorem headings_only_at_column_zero (c : Char) (t : Line) (ls : List Line)
    (hws : pyIsSpace c = true) :
    (∀ lvl txt rest,
      classifyLines ((c :: t) :: ls) ≠ Block.Heading lvl txt :: rest) ∧
    ((strip (c :: t)).isEmpty = false → isBulletLine (c :: t) = true →
      classifyLines ((c :: t) :: ls) =
        Block.ListBlock (bulletItemText (c :: t)
            :: (ls.takeWhile isBulletLine).map bulletItemText)
          :: Block.Blank 4 :: classifyLines (ls.dropWhile isBulletLine)) ∧
    ((strip (c :: t)).isEmpty = false → isBulletLine (c :: t) = false →
      classifyLines ((c :: t) :: ls) =
        Block.Paragraph (rstrip (c :: t)) :: classifyLines ls) := by
  refine ⟨?_, ?_, ?_⟩
  · intro lvl txt rest heq
    rw [classifyLines_cons] at heq
    split_ifs at heq with hb hh2 hh3 hbl
    · simp at heq
    · simp [ws_not_h2 hws] at hh2
    · simp [ws_not_h3 hws] at hh3
    · simp at heq
    · simp at heq
  · intro _ hbul
    exact classify_bullet_run (c :: t) ls hbul
  · intro hnb hnbul
    have h0 : (strip (rstrip (c :: t))).isEmpty = false := by
      rw [strip_rstrip]; exact hnb
    rw [classifyLines_cons]
    simp [h0, ws_not_h2 hws, ws_not_h3 hws, isBulletLine_rstrip, hnbul]

/-- Witness for C10: a line that left-trims to a level-2 heading marker
plus text but starts with a space is classified as a paragraph. -/
theorem headings_only_at_column_zero_witness :
    classifyLines [" ## Hi".data] = [Block.Paragraph " ## Hi".data] :=
  ((headings_only_at_column_zero ' ' "## Hi".data [] (by decide)).2.2
      (by decide) (by decide)).trans (by decide)
